import Mathlib

/-!
Formal model of the Xactimate estimate text parser
(`src/api/parsers/xactimate_parser.py`) as a shallow embedding, together
with theorems settling the specification's claims about it.

Modelling conventions:
* Python `float` values are modelled as exact rationals (`ℚ`).  Every
  monetary value exercised by the claims is a short decimal literal, so
  the binary rounding of IEEE doubles is irrelevant to the statements
  proved here; `round(x, 2)` is modelled as exact half-to-even rounding
  of `100 * x`.
* Python strings are modelled as Lean `String`s; the character-class
  operations (`strip`, `split`, `upper`, `lower`, regex classes) are
  modelled for the ASCII range, which covers every character the
  source's regexes can accept and every input used in the proofs.
* The source's regular expressions are anchored patterns over disjoint
  character classes, so each `re.match`/`re.search` call is implemented
  as the equivalent deterministic scanner; doc comments on each
  definition record the pattern being implemented.
* Exceptions raised while parsing one candidate item are caught by the
  source and turn into "skip this item"; they are modelled by `Option`.
-/

/-- Python whitespace for the ASCII range: the characters for which
`str.isspace()` holds and which `\s` matches in `re` (space, tab,
newline, vertical tab, form feed, carriage return, and the ASCII
separator control characters 28-31). -/
def pyIsSpace (c : Char) : Bool :=
  c = ' ' || c = '\t' || c = '\n' || c = '\x0b' || c = '\x0c' || c = '\r' ||
  c.toNat = 28 || c.toNat = 29 || c.toNat = 30 || c.toNat = 31

/-- Python `str.strip()` on a character list. -/
def pyStripList (cs : List Char) : List Char :=
  ((cs.dropWhile pyIsSpace).reverse.dropWhile pyIsSpace).reverse

/-- Python `str.strip()`. -/
def pyStrip (s : String) : String :=
  String.mk (pyStripList s.toList)

/-- Python `str.upper()` (ASCII). -/
def pyUpper (s : String) : String :=
  String.mk (s.toList.map Char.toUpper)

/-- Python `str.lower()` (ASCII). -/
def pyLower (s : String) : String :=
  String.mk (s.toList.map Char.toLower)

/-- Python substring membership `needle in hay`. -/
def strContainsSub (hay needle : String) : Bool :=
  hay.toList.tails.any (fun t => needle.toList.isPrefixOf t)

/-- Helper for `str.split()` with no separator: accumulate the current
word (reversed) while scanning; whitespace runs separate words and
leading/trailing whitespace produces no empty words. -/
def splitWsAux (acc : List Char) : List Char → List (List Char)
  | [] => if acc = [] then [] else [acc.reverse]
  | c :: cs =>
    if pyIsSpace c then
      if acc = [] then splitWsAux [] cs else acc.reverse :: splitWsAux [] cs
    else
      splitWsAux (c :: acc) cs

/-- Python `str.split()` (split on whitespace runs, dropping empties). -/
def pyWords (s : String) : List String :=
  (splitWsAux [] s.toList).map String.mk

/-- Python `text.split(sep)` for a single-character separator: keeps
empty segments, and the empty string yields one empty segment. -/
def splitOnCharList (sep : Char) : List Char → List (List Char)
  | [] => [[]]
  | c :: cs =>
    match splitOnCharList sep cs with
    | [] => [[]]
    | h :: t => if c = sep then [] :: h :: t else (c :: h) :: t

/-- Python `text.split(chr 10)` used to turn the document into lines. -/
def pySplitLines (s : String) : List String :=
  (splitOnCharList '\n' s.toList).map String.mk

/-- Remove every occurrence of a character from a string
(Python `value.replace(c, empty)` for a one-character needle). -/
def removeChar (c : Char) (s : String) : String :=
  String.mk (s.toList.filter (fun d => d ≠ c))

/-- Fuel-bounded removal of every occurrence of a nonempty pattern,
left to right and non-overlapping (Python `str.replace(old, empty)`). -/
def removeAllSubAux (pat : List Char) : Nat → List Char → List Char
  | 0, cs => cs
  | fuel + 1, cs =>
    if pat ≠ [] && pat.isPrefixOf cs then
      removeAllSubAux pat fuel (cs.drop pat.length)
    else
      match cs with
      | [] => []
      | c :: rest => c :: removeAllSubAux pat fuel rest

/-- Python `str.replace(old, empty)` (delete all occurrences of `old`). -/
def removeAllSub (s pat : String) : String :=
  String.mk (removeAllSubAux pat.toList s.toList.length s.toList)

/-- Digit list to natural number. -/
def digitsToNat (ds : List Char) : Nat :=
  ds.foldl (fun acc c => 10 * acc + (c.toNat - 48)) 0

/-- Power of ten as a rational. -/
def tenPow (n : Nat) : ℚ := (10 : ℚ) ^ n

/-- The decimal fragment of Python's `float(string)` conversion:
optional sign, integer digits, optional `.` and fraction digits,
optional exponent part; at least one digit must be present in the
mantissa and (when the marker appears) in the exponent, and no other
characters may remain.  `inf`/`nan` spellings, underscores between
digits and non-ASCII digits are outside the fragment modelled here
(none of them can reach this function through the source's character
classes or appear in the inputs used below); on them and on any other
rejected string the function returns `none`, matching the `ValueError`
path of the source. -/
def pyFloatOfString (s : String) : Option ℚ :=
  let cs := pyStripList s.toList
  let (sign, cs1) : ℚ × List Char :=
    match cs with
    | '-' :: rest => (-1, rest)
    | '+' :: rest => (1, rest)
    | _ => (1, cs)
  let intPart := cs1.takeWhile Char.isDigit
  let cs2 := cs1.drop intPart.length
  let (fracPart, cs3) : List Char × List Char :=
    match cs2 with
    | '.' :: rest => (rest.takeWhile Char.isDigit, rest.drop (rest.takeWhile Char.isDigit).length)
    | _ => ([], cs2)
  if intPart = [] && fracPart = [] then none
  else
    let mant : ℚ := (digitsToNat intPart : ℚ) + (digitsToNat fracPart : ℚ) / tenPow fracPart.length
    match cs3 with
    | [] => some (sign * mant)
    | e :: rest =>
      if e = 'e' || e = 'E' then
        let (esign, rest1) : Bool × List Char :=
          match rest with
          | '-' :: r => (true, r)
          | '+' :: r => (false, r)
          | _ => (false, rest)
        let expDigits := rest1.takeWhile Char.isDigit
        if expDigits = [] || rest1.drop expDigits.length ≠ [] then none
        else
          let ex := digitsToNat expDigits
          some (sign * (if esign then mant / tenPow ex else mant * tenPow ex))
      else none

/-- Source `_parse_number`: strip thousands separators, then convert;
the empty string becomes `0.0`; a conversion error (modelled as `none`)
propagates as the exception the caller catches. -/
def parseNumber (value : String) : Option ℚ :=
  let cleaned := pyStrip (removeChar ',' value)
  if cleaned = "" then some 0 else pyFloatOfString cleaned

/-- Source `_parse_currency`: additionally strip dollar signs, angle
brackets and parentheses before conversion. -/
def parseCurrency (value : String) : Option ℚ :=
  let cleaned := pyStrip (removeChar '$' (removeChar ',' (removeChar '<'
    (removeChar '>' (removeChar '(' (removeChar ')' value))))))
  if cleaned = "" then some 0 else pyFloatOfString cleaned

/-- Half-to-even rounding of a rational to an integer
(the rounding Python's builtin `round` uses). -/
def roundHalfEven (q : ℚ) : ℤ :=
  let f := ⌊q⌋
  let r := q - (f : ℚ)
  if r < 1/2 then f
  else if 1/2 < r then f + 1
  else if Even f then f else f + 1

/-- Python `round(x, 2)` modelled exactly on rationals. -/
def pyRound2 (q : ℚ) : ℚ :=
  (roundHalfEven (100 * q) : ℚ) / 100

/-- Uppercase ASCII letter, the regex class `[A-Z]`. -/
def isUpperAZ (c : Char) : Bool := 'A' ≤ c && c ≤ 'Z'

/-- The regex class `[\d,.]`. -/
def isNumClass (c : Char) : Bool := c.isDigit || c = ',' || c = '.'

/-- A token of the regex `\d+`. -/
def isDigitsTok (w : List Char) : Bool := w ≠ [] && w.all Char.isDigit

/-- A token of the regex `[\d,.]+`. -/
def isNumTok (w : List Char) : Bool := w ≠ [] && w.all isNumClass

/-- A full-token match of the regex `[A-Z]{2,3}` (anchored on both
sides, as in the source's unit pattern): two or three uppercase
letters. -/
def isUnitTok (w : List Char) : Bool :=
  (w.length = 2 || w.length = 3) && w.all isUpperAZ

/-- A token of the regex `\([\d,.]+\)`: a parenthesised numeric body. -/
def isParenNumTok (w : List Char) : Bool :=
  match w with
  | '(' :: rest =>
    (rest.getLast? = some ')') && (rest.dropLast ≠ []) && (rest.dropLast).all isNumClass
  | _ => false

/-- Source unit pattern `^[A-Z]{2,3}$` applied to one whitespace-split
token. -/
def unitTokenMatch (p : String) : Bool := isUnitTok p.toList

/-- The source's single-line layout pattern
`^\d+\s+[\d,.]+\s+[A-Z]{2,3}\s+[\d,.]+\s+[\d,.]+\s+\([\d,.]+\)\s+[\d,.]+$`
(applied with `re.search`).  Because every token class excludes
whitespace and the pattern is anchored, a match is exactly: the string
(up to one trailing newline, which `$` permits) starts and ends with a
non-whitespace character and splits on whitespace into exactly seven
tokens of the listed classes. -/
def singleLineMatch (s : String) : Bool :=
  let cs0 := s.toList
  let cs := if cs0.getLast? = some '\n' then cs0.dropLast else cs0
  match cs.head?, cs.getLast? with
  | some a, some b =>
    if pyIsSpace a || pyIsSpace b then false
    else
      match splitWsAux [] cs with
      | [w1, w2, w3, w4, w5, w6, w7] =>
        isDigitsTok w1 && isNumTok w2 && isUnitTok w3 && isNumTok w4 &&
        isNumTok w5 && isParenNumTok w6 && isNumTok w7
      | _ => false
  | _, _ => false

/-- Source item-header pattern `^(\d+[a-z]?)\.\s+(.+)` applied with
`re.match`.  Returns (group 1, group 2).  The digit run is maximal, the
optional lowercase letter and the dot follow, then a nonempty
whitespace run; `.` matches any character but a newline, and the greedy
`\s+`/`(.+)` interplay places the start of group 2 at the latest
position inside the whitespace run (leaving at least one whitespace
character before it) whose character is not a newline, preferring the
position right after the run. -/
def itemHeaderMatch (line : String) : Option (String × String) :=
  let cs := line.toList
  let ds := cs.takeWhile Char.isDigit
  if ds = [] then none
  else
    let rest1 := cs.drop ds.length
    let (suffix, rest2) : List Char × List Char :=
      match rest1 with
      | c :: r => if c.isLower then ([c], r) else ([], rest1)
      | [] => ([], rest1)
    match rest2 with
    | '.' :: rest3 =>
      let w := rest3.takeWhile pyIsSpace
      if w = [] then none
      else
        let rem := rest3.drop w.length
        let g2 :=
          match rem.head? with
          | some c =>
            if c ≠ '\n' then some (rem.takeWhile (fun d => d ≠ '\n'))
            else none
          | none => none
        let g2' :=
          match g2 with
          | some g => some g
          | none =>
            -- backtrack into the whitespace run: latest split keeping
            -- at least one whitespace character for the mandatory run
            (List.range w.length).findSome? (fun d =>
              let p := w.length - 1 - d
              if p ≥ 1 then
                match (w.drop p ++ rem).head? with
                | some c =>
                  if c ≠ '\n' then
                    some ((w.drop p ++ rem).takeWhile (fun e => e ≠ '\n'))
                  else none
                | none => none
              else none)
        match g2' with
        | some g => some (String.mk (ds ++ suffix), String.mk g)
        | none => none
    | _ => none

/-- Source stop pattern `^\d+[a-z]?\.\s+\S` applied with `re.match`:
digits, an optional lowercase letter, a dot, a nonempty whitespace run
and then at least one non-whitespace character. -/
def stopLineMatch (line : String) : Bool :=
  let cs := line.toList
  let ds := cs.takeWhile Char.isDigit
  if ds = [] then false
  else
    let rest1 := cs.drop ds.length
    let rest2 :=
      match rest1 with
      | c :: r => if c.isLower then r else rest1
      | [] => rest1
    match rest2 with
    | '.' :: rest3 =>
      let w := rest3.takeWhile pyIsSpace
      w ≠ [] && rest3.drop w.length ≠ []
    | _ => false

/-- Source quantity pattern `([\d,.]+)\s+([A-Z]{2,3})` applied with
`re.match` to the first collected data line: a maximal numeric run, a
whitespace run, then at least two uppercase letters (the greedy
quantifier captures at most three). -/
def qtyUnitMatch (s : String) : Option (String × String) :=
  let cs := s.toList
  let r1 := cs.takeWhile isNumClass
  if r1 = [] then none
  else
    let rest := cs.drop r1.length
    let w := rest.takeWhile pyIsSpace
    if w = [] then none
    else
      let rest2 := rest.drop w.length
      let up := rest2.takeWhile isUpperAZ
      if up.length ≥ 2 then some (String.mk r1, String.mk (up.take 3))
      else none

/-- Source continuation filter pattern `^[\d,.<>]+$` applied with
`re.match`: the whole string consists of digits, commas, periods and
angle brackets. -/
def numOnlyMatch (s : String) : Bool :=
  s.toList ≠ [] && s.toList.all (fun c => c.isDigit || c = ',' || c = '.' || c = '<' || c = '>')

/-- Room keywords of `_is_room_header_gps`. -/
def roomKeywords : List String :=
  ["EXTERIOR", "ENTRY", "FOYER", "KITCHEN", "BATHROOM", "BEDROOM",
   "LIVING", "DINING", "GARAGE", "LAUNDRY", "MAIN LEVEL", "BASEMENT",
   "HALLWAY", "OFFICE", "DEN", "CLOSET", "UTILITY", "PANTRY",
   "MASTER", "GUEST", "FAMILY ROOM"]

/-- Exclusion terms of `_is_room_header_gps`. -/
def roomExcludeTerms : List String :=
  ["DESCRIPTION", "QUANTITY", "UNIT", "PRICE", "HEIGHT:"]

/-- Source `_is_room_header_gps`: a nonempty line of at most 50
characters containing a room keyword and no exclusion term. -/
def isRoomHeaderGps (line : String) : Bool :=
  if line = "" || line.toList.length > 50 then false
  else
    let lineUpper := pyUpper line
    if roomKeywords.any (fun kw => strContainsSub lineUpper kw) then
      !(roomExcludeTerms.any (fun x => strContainsSub lineUpper x))
    else false

/-- One extracted line item (`LineItem` of the data model). -/
structure LineItem where
  line_number : Nat
  room : Option String
  description : String
  quantity : ℚ
  unit : String
  unit_price : ℚ
  tax : ℚ
  o_and_p : ℚ
  rcv : ℚ
  depreciation : ℚ
  acv : ℚ
  category : String
deriving DecidableEq, Repr

/-- True when any keyword of the list occurs in the (already
uppercased) description. -/
def anyKw (descUpper : String) (kws : List String) : Bool :=
  kws.any (fun kw => strContainsSub descUpper kw)

/-- Source `_determine_category`: the ordered first-match-wins keyword
cascade, transcribed branch for branch, applied to the uppercased
description (`desc_upper` in the source). -/
def determineCategoryUpper (d : String) : String :=
  if anyKw d ["DEDUCTION", "DEDUCT FOR", "LESS ", "SUBTRACT", "CREDIT FOR"] then "GENERAL"
  else if anyKw d ["WATER EXTRACTION", "STRUCTURAL DRYING", "MOISTURE", "DEHUMID", "AIR MOVER", "WATER MITIGATION"] then "WATER EXTRACTION & REMEDIATION"
  else if anyKw d ["CLEAN", "MUCK OUT", "SANITIZE", "DISINFECT", "ANTI-MICROBIAL", "ANTIMICROBIAL", "DEODOR"] then "CLEANING"
  else if anyKw d ["DEMO", "DEMOLITION", "TEAR OUT", "REMOVE ", "DISPOSAL", "DUMPSTER", "HAUL", "DEBRIS"] then "GENERAL DEMOLITION"
  else if anyKw d ["TEMPORARY", "TARP", "BOARD UP", "EMERGENCY"] then "TEMPORARY REPAIRS"
  else if anyKw d ["DOOR", "THRESHOLD", "DOOR HARDWARE", "DOOR KNOB", "DOOR HANDLE", "LOCKSET", "DEADBOLT"] then "DOORS"
  else if anyKw d ["PATIO DOOR", "SLIDING DOOR", "SLIDING GLASS"] then "WINDOWS - SLIDING PATIO DOORS"
  else if anyKw d ["WINDOW", "GLASS", "GLAZING"] then "WINDOWS - ALUMINUM"
  else if anyKw d ["WINDOW TREATMENT", "BLINDS", "SHADE", "CURTAIN"] then "WINDOW TREATMENT"
  else if anyKw d ["MIRROR", "SHOWER DOOR", "TUB DOOR", "GLASS DOOR"] then "MIRRORS & SHOWER DOORS"
  else if anyKw d ["APPLIANCE", "DISHWASHER", "RANGE", "REFRIGERATOR", "WASHER", "DRYER", "GARBAGE DISPOSAL", "DISPOSAL", "MICROWAVE", "STOVE", "OVEN"] then "APPLIANCES"
  else if anyKw d ["PLUMB", "FAUCET", "VALVE", "PIPE", "DRAIN", "TRAP", "SUPPLY LINE", "WATER LINE", "SHOWER HEAD", "TUB", "BATHTUB"] then "PLUMBING"
  else if strContainsSub d "SINK" && !strContainsSub d "CABINET" then "PLUMBING"
  else if strContainsSub d "TOILET" && !strContainsSub d "ACCESSORY" then "PLUMBING"
  else if anyKw d ["ELECTRIC", "OUTLET", "SWITCH", "RECEPTACLE", "WIRE", "WIRING", "BREAKER", "PANEL", "GFI", "GFCI"] then "ELECTRICAL"
  else if anyKw d ["LIGHT FIXTURE", "LIGHTING", "CHANDELIER", "CEILING FAN"] then "LIGHT FIXTURES"
  else if anyKw d ["HVAC", "AIR CONDITION", "FURNACE", "DUCT", "AC UNIT", "HEAT PUMP", "CONDENSER", "THERMOSTAT"]
          && !strContainsSub d "STRUCTURAL DRYING" && !strContainsSub d "WATER" then "HEAT, VENT & AIR CONDITIONING"
  else if anyKw d ["CABINET", "COUNTER TOP", "COUNTERTOP", "VANITY"] then "CABINETRY"
  else if anyKw d ["DRYWALL", "SHEETROCK", "GYPSUM", "TEXTURE WALL", "TEXTURE CEILING"] then "DRYWALL"
  else if anyKw d ["PLASTER", "LATH"] then "INTERIOR LATH & PLASTER"
  else if anyKw d ["STUCCO", "EXTERIOR PLASTER"] then "STUCCO & EXTERIOR PLASTER"
  else if anyKw d ["BASEBOARD", "BASE BOARD", "TRIM", "MOLDING", "CASING", "CROWN", "WAINSCOT", "CHAIR RAIL"] then "FINISH CARPENTRY / TRIMWORK"
  else if anyKw d ["FINISH HARDWARE", "KNOB", "HANDLE", "HINGE", "PULL"] then "FINISH HARDWARE"
  else if anyKw d ["PAINT", "PRIMER", "STAIN", "WOOD FINISH", "SEAL"] then "PAINTING & WOOD WALL FINISHES"
  else if anyKw d ["PANEL", "WOOD PANEL", "WAINSCOTING"] then "PANELING & WOOD WALL FINISHES"
  else if strContainsSub d "WALLPAPER" then "WALLPAPER"
  else if strContainsSub d "FLOOR PERIMETER" || strContainsSub d "PERIMETER" then "PAINTING & WOOD WALL FINISHES"
  else if anyKw d ["CERAMIC TILE", "PORCELAIN TILE"] then "FLOOR COVERING - CERAMIC TILE"
  else if anyKw d ["CARPET", "PAD"] then "FLOOR COVERING - CARPET"
  else if anyKw d ["STONE FLOOR", "MARBLE FLOOR", "GRANITE FLOOR", "TRAVERTINE"] then "FLOOR COVERING - STONE"
  else if anyKw d ["HARDWOOD", "WOOD FLOOR", "OAK FLOOR", "ENGINEERED WOOD"] then "FLOOR COVERING - WOOD"
  else if anyKw d ["VINYL", "LVP", "LVT", "LUXURY VINYL"] then "FLOOR COVERING - VINYL"
  else if anyKw d ["LAMINATE"] then "FLOOR COVERING - LAMINATE"
  else if anyKw d ["TILE", "REGROUT"] then "TILE"
  else if anyKw d ["FLOOR", "FLOORING"] then "FLOOR COVERING"
  else if anyKw d ["SOFFIT", "FASCIA", "GUTTER", "DOWNSPOUT"] then "SOFFIT, FASCIA, & GUTTER"
  else if anyKw d ["INSULATION", "INSULATE", "BATT", "BLOWN-IN"] then "INSULATION"
  else if anyKw d ["TOILET ACCESSORY", "BATH ACCESSORY", "TOWEL BAR", "PAPER HOLDER", "GRAB BAR"] then "TOILET & BATH ACCESSORIES"
  else "GENERAL"

/-- Source `_determine_category`: uppercase the description, then run
the cascade. -/
def determineCategory (description : String) : String :=
  determineCategoryUpper (pyUpper description)

/-- Every label `_determine_category` can return. -/
def allCategoryLabels : List String :=
  ["GENERAL", "WATER EXTRACTION & REMEDIATION", "CLEANING", "GENERAL DEMOLITION",
   "TEMPORARY REPAIRS", "DOORS", "WINDOWS - SLIDING PATIO DOORS", "WINDOWS - ALUMINUM",
   "WINDOW TREATMENT", "MIRRORS & SHOWER DOORS", "APPLIANCES", "PLUMBING", "ELECTRICAL",
   "LIGHT FIXTURES", "HEAT, VENT & AIR CONDITIONING", "CABINETRY", "DRYWALL",
   "INTERIOR LATH & PLASTER", "STUCCO & EXTERIOR PLASTER", "FINISH CARPENTRY / TRIMWORK",
   "FINISH HARDWARE", "PAINTING & WOOD WALL FINISHES", "PANELING & WOOD WALL FINISHES",
   "WALLPAPER", "FLOOR COVERING - CERAMIC TILE", "FLOOR COVERING - CARPET",
   "FLOOR COVERING - STONE", "FLOOR COVERING - WOOD", "FLOOR COVERING - VINYL",
   "FLOOR COVERING - LAMINATE", "TILE", "FLOOR COVERING", "SOFFIT, FASCIA, & GUTTER",
   "INSULATION", "TOILET & BATH ACCESSORIES"]

/-- Source `_parse_single_line_format`.  `numItems` is
`len(self.line_items)` at call time (it only feeds `line_number`).
Returns the item appended on success; `none` models both the silent
guard failures and a caught conversion exception. -/
def parseSingleLineFormat (description dataLine : String) (room : Option String)
    (numItems : Nat) : Option LineItem :=
  let parts := pyWords dataLine
  if parts.length ≥ 6 then
    match parts.findIdx? unitTokenMatch with
    | some unitIdx =>
      if unitIdx > 0 then
        match parseNumber (parts.getD (unitIdx - 1) "") with
        | some quantity =>
          let unit := parts.getD unitIdx ""
          let remaining := parts.drop (unitIdx + 1)
          if remaining.length ≥ 4 then
            match parseCurrency (remaining.getD 0 "") with
            | some unitPrice =>
              match parseCurrency (remaining.getD 1 "") with
              | some rcv =>
                match parseCurrency (remaining.getD 2 "") with
                | some depreciation =>
                  match parseCurrency (remaining.getD 3 "") with
                  | some acv =>
                    some ⟨numItems + 1, room, description, quantity, unit, unitPrice,
                          0, 0, rcv, depreciation, acv, determineCategory description⟩
                  | none => none
                | none => none
              | none => none
            | none => none
          else none
        | none => none
      else none
    | none => none
  else none

/-- The data-line collection loop of `_parse_multi_line_format`: from
the lines after the header, take up to 14 stripped lines, stopping at
an empty line or at the next item header. -/
def collectDataLines : Nat → List String → List String
  | 0, _ => []
  | _, [] => []
  | fuel + 1, l :: ls =>
    let s := pyStrip l
    if s ≠ "" && !stopLineMatch s then s :: collectDataLines fuel ls
    else []

/-- The skip-words of the description-continuation loop. -/
def skipWords : List String := ["TOTAL", "DESCRIPTION", "QUANTITY", "CONTINUED"]

/-- One step of the description-continuation loop of
`_parse_multi_line_format` (indices 7, 8, 9 of the data lines). -/
def contAppend (acc : String) (d : String) : String :=
  if d ≠ "" && !numOnlyMatch d && d.toList.length > 3 then
    if !(skipWords.any (fun kw => strContainsSub (pyUpper d) kw)) then acc ++ " " ++ d
    else acc
  else acc

/-- Source `_parse_multi_line_format`.  `rest` is the list of lines
after the header line; `numItems` is `len(self.line_items)`. -/
def parseMultiLineFormat (description : String) (rest : List String)
    (room : Option String) (numItems : Nat) : Option LineItem :=
  let dataLines := collectDataLines 14 rest
  if dataLines.length ≥ 7 then
    match qtyUnitMatch (dataLines.getD 0 "") with
    | some (qs, unit) =>
      match parseNumber qs with
      | some quantity =>
        match parseCurrency (dataLines.getD 1 "") with
        | some unitPrice =>
          match parseCurrency (dataLines.getD 2 "") with
          | some tax =>
            match parseCurrency (dataLines.getD 3 "") with
            | some oAndP =>
              match parseCurrency (dataLines.getD 4 "") with
              | some rcv =>
                match parseCurrency (dataLines.getD 5 "") with
                | some depreciation =>
                  match parseCurrency (dataLines.getD 6 "") with
                  | some acv =>
                    let fullDescription :=
                      (([7, 8, 9].filter (fun i => i < dataLines.length)).foldl
                        (fun acc i => contAppend acc (dataLines.getD i "")) description)
                    some ⟨numItems + 1, room, fullDescription, quantity, unit, unitPrice,
                          tax, oAndP, rcv, depreciation, acv, determineCategory fullDescription⟩
                  | none => none
                | none => none
              | none => none
            | none => none
          | none => none
        | none => none
      | none => none
    | none => none
  else none

/-- The room-state update applied to each (stripped) line before item
detection in `_extract_line_items_gps_format`. -/
def roomUpdate (line : String) (room : Option String) : Option String :=
  if isRoomHeaderGps line then some line else room

/-- The scanning loop of `_extract_line_items_gps_format`, walking the
line list while threading the current room and the accumulated item
list (`self.line_items`, to which both layouts append). -/
def scanLines : List String → Option String → List LineItem → List LineItem
  | [], _, acc => acc
  | l :: rest, room, acc =>
    let line := pyStrip l
    let room1 := roomUpdate line room
    match itemHeaderMatch line with
    | none => scanLines rest room1 acc
    | some (_, g2) =>
      let description := pyStrip g2
      match rest with
      | [] => acc
      | nl :: _ =>
        let nextLine := pyStrip nl
        if singleLineMatch nextLine then
          match parseSingleLineFormat description nextLine room1 acc.length with
          | some item => scanLines rest room1 (acc ++ [item])
          | none => scanLines rest room1 acc
        else
          match parseMultiLineFormat description rest room1 acc.length with
          | some item => scanLines rest room1 (acc ++ [item])
          | none => scanLines rest room1 acc

/-- The composite deduplication key of `_remove_duplicate_line_items`:
(uppercased stripped description, quantity, uppercased unit). -/
def dedupKey (it : LineItem) : String × ℚ × String :=
  (pyUpper (pyStrip it.description), it.quantity, pyUpper it.unit)

/-- The seen-set fold of `_remove_duplicate_line_items`; the Python
`set` is modelled as a key list queried by membership. -/
def dedupGo (seen : List (String × ℚ × String)) : List LineItem → List LineItem
  | [] => []
  | it :: rest =>
    if dedupKey it ∈ seen then dedupGo seen rest
    else it :: dedupGo (dedupKey it :: seen) rest

/-- Source `_remove_duplicate_line_items` as a function on the item
list it replaces `self.line_items` with. -/
def removeDuplicateLineItems (items : List LineItem) : List LineItem :=
  dedupGo [] items

/-- One per-category summary (`CategorySummary` of the data model). -/
structure CategorySummary where
  name : String
  rcv : ℚ
  depreciation : ℚ
  acv : ℚ
  item_count : Nat
  unique_items : List String
deriving DecidableEq, Repr

/-- Replace the value of a key in an insertion-ordered association
list (keeping its position), or append a new binding at the end —
the update discipline of a Python `dict`. -/
def setCat : List (String × CategorySummary) → String → CategorySummary →
    List (String × CategorySummary)
  | [], k, v => [(k, v)]
  | (k', v') :: rest, k, v =>
    if k' = k then (k, v) :: rest else (k', v') :: setCat rest k v

/-- One iteration of `_build_categories_from_items`: fetch or
initialise the item's category bucket, add the monetary fields, bump
the count and record the stripped description if unseen. -/
def updateCat (m : List (String × CategorySummary)) (it : LineItem) :
    List (String × CategorySummary) :=
  let c := it.category
  let cur := ((m.lookup c).getD ⟨c, 0, 0, 0, 0, []⟩)
  let d := pyStrip it.description
  setCat m c
    { cur with
      rcv := cur.rcv + it.rcv
      depreciation := cur.depreciation + it.depreciation
      acv := cur.acv + it.acv
      item_count := cur.item_count + 1
      unique_items := if d ∈ cur.unique_items then cur.unique_items
                      else cur.unique_items ++ [d] }

/-- Source `_build_categories_from_items` folded over the (already
deduplicated) item list, threading `self.categories`. -/
def buildCategoriesFromItems (m : List (String × CategorySummary))
    (items : List LineItem) : List (String × CategorySummary) :=
  items.foldl updateCat m

/-- Source `_get_category_priority_order`. -/
def categoryPriorityOrder : List String :=
  ["CLEANING", "GENERAL DEMOLITION", "WATER EXTRACTION & REMEDIATION", "TEMPORARY REPAIRS"]

/-- Source `get_sort_key`: priority categories map to
`(0, index, name)`, the rest to `(1, 0, name)`. -/
def getSortKey (c : CategorySummary) : Nat × Nat × String :=
  match categoryPriorityOrder.indexOf? c.name with
  | some i => (0, i, c.name)
  | none => (1, 0, c.name)

/-- Lexicographic comparison of character lists by code point — the
order Python uses to compare strings. -/
def strLeListb : List Char → List Char → Bool
  | [], _ => true
  | _ :: _, [] => false
  | a :: as, b :: bs =>
    if a.toNat < b.toNat then true
    else if b.toNat < a.toNat then false
    else strLeListb as bs

/-- The lexicographic comparison Python applies to `get_sort_key`
triples (naturals first, then the name string by code point). -/
def keyLeb (x y : Nat × Nat × String) : Bool :=
  if x.1 = y.1 then
    if x.2.1 = y.2.1 then strLeListb x.2.2.toList y.2.2.toList
    else decide (x.2.1 < y.2.1)
  else decide (x.1 < y.1)

/-- The sort relation of `_sort_categories`. -/
def catKeyLe (a b : CategorySummary) : Prop :=
  keyLeb (getSortKey a) (getSortKey b) = true

instance : DecidableRel catKeyLe := fun a b =>
  inferInstanceAs (Decidable (keyLeb (getSortKey a) (getSortKey b) = true))

/-- Source `_sort_categories`: Python's `sorted` is a stable sort by
`get_sort_key`, modelled by insertion sort on the key order (stable,
and producing the identical list because `sorted` output is determined
by the key order together with stability). -/
def sortCategories (cats : List CategorySummary) : List CategorySummary :=
  List.insertionSort catKeyLe cats

/-- Update in place or append — the Python `dict` assignment used by
`_extract_header_data` on `self.header_data`. -/
def setHeaderKey : List (String × String) → String → String → List (String × String)
  | [], k, v => [(k, v)]
  | (k', v') :: rest, k, v =>
    if k' = k then (k, v) :: rest else (k', v') :: setHeaderKey rest k v

/-- Case-insensitive prefix test (ASCII lowering on both sides). -/
def ciPrefix : List Char → List Char → Bool
  | [], _ => true
  | _ :: _, [] => false
  | p :: ps, c :: cs => p.toLower = c.toLower && ciPrefix ps cs

/-- All start positions at which a label occurs case-insensitively:
`re.search` tries them leftmost first. -/
def labelPositions (lbl : String) (cs : List Char) : List Nat :=
  (List.range (cs.length + 1)).filter (fun i => ciPrefix lbl.toList (cs.drop i))

/-- ASCII letter — the insured-name pattern's `[A-Z]` under
`re.IGNORECASE`. -/
def isLetterCI (c : Char) : Bool := c.isUpper || c.isLower

/-- The insured-name body class `[A-Z\s&,.\-']` under `IGNORECASE`. -/
def insuredBodyClass (c : Char) : Bool :=
  isLetterCI c || pyIsSpace c || c = '&' || c = ',' || c = '.' || c = '-' ||
  c = Char.ofNat 39

/-- The terminator `(?:\s+Home:|\s+E-mail:|\n)` of the insured-name
pattern, tested at a given suffix: a nonempty whitespace run followed
by the label (the run is maximal because the label starts with a
non-whitespace character), or a newline.  Which alternative fires does
not change the captured group. -/
def insuredTerm (ts : List Char) : Bool :=
  (let u := ts.takeWhile pyIsSpace
   u ≠ [] && (ciPrefix "Home:".toList (ts.drop u.length) ||
              ciPrefix "E-mail:".toList (ts.drop u.length))) ||
  ts.head? = some '\n'

/-- Try the insured-name pattern
`Insured:\s*([A-Z][A-Z\s&,.\-']+?)(?:\s+Home:|\s+E-mail:|\n)` at one
label occurrence: the greedy `\s*` is explored longest first, the lazy
group extension shortest first; on success the captured group is
stripped (as the source does). -/
def insuredAt (cs : List Char) (i : Nat) : Option String :=
  let tail := cs.drop (i + 8)
  let w := tail.takeWhile pyIsSpace
  (List.range (w.length + 1)).findSome? (fun d =>
    let k := w.length - d
    match tail.drop k with
    | [] => none
    | c :: rest =>
      if isLetterCI c then
        (List.range rest.length).findSome? (fun l0 =>
          let grp := rest.take (l0 + 1)
          if grp.all insuredBodyClass && insuredTerm (rest.drop (l0 + 1)) then
            some (pyStrip (String.mk (c :: grp)))
          else none)
      else none)

/-- The `re.search` for the insured name over the whole text. -/
def insuredSearch (text : String) : Option String :=
  (labelPositions "Insured:" text.toList).findSome? (insuredAt text.toList)

/-- Existence of a match of `Property:\s*(.+?)(?:\n|\s{2,})` at one
label occurrence (`.` excludes newlines; the terminator is a newline
or two whitespace characters).  Only existence matters: the source
uses `match.start()`, the position of the label itself. -/
def propertyAt (cs : List Char) (i : Nat) : Bool :=
  let tail := cs.drop (i + 9)
  let w := tail.takeWhile pyIsSpace
  (List.range (w.length + 1)).any (fun k =>
    let t1 := tail.drop k
    (List.range t1.length).any (fun l0 =>
      let grp := t1.take (l0 + 1)
      let ts := t1.drop (l0 + 1)
      grp.all (fun c => c ≠ '\n') &&
      (ts.head? = some '\n' ||
       (match ts with
        | a :: b :: _ => pyIsSpace a && pyIsSpace b
        | _ => false))))

/-- The address-assembly loop of `_extract_header_data`: starting from
the match position, take a 200-character window, split it into lines,
and collect up to four parts (the first with the literal `Property:`
removed), stopping at an empty or stop-listed line. -/
def propertyStopTerms : List String := ["claim rep", "business:", "position:", "company:"]

/-- Collect the address continuation lines (indices 1-3 of the
window), stopping at the first empty or stop-listed line. -/
def addressContinuation : List String → List String
  | [] => []
  | l :: rest =>
    if pyStrip l ≠ "" &&
       !(propertyStopTerms.any (fun x => strContainsSub (pyLower l) x)) then
      pyStrip l :: addressContinuation rest
    else []

/-- Build the property address from the match start position. -/
def buildPropertyAddress (cs : List Char) (i : Nat) : String :=
  let window := (cs.drop i).take 200
  let lns := (splitOnCharList '\n' window).map String.mk
  match lns.take 4 with
  | [] => ""
  | l0 :: rest =>
    let parts := pyStrip (removeAllSub l0 "Property:") :: addressContinuation rest
    String.intercalate " " parts

/-- The `re.search` for the property address: the leftmost matching
label position feeds the address assembly. -/
def propertySearch (text : String) : Option String :=
  ((labelPositions "Property:" text.toList).find? (propertyAt text.toList)).map
    (buildPropertyAddress text.toList)

/-- `Claim Number:\s*(\d+)`: after the label and the whitespace run a
digit must follow (the classes are disjoint, so only the maximal run
placement can match); the group is the maximal digit run. -/
def claimNumberAt (cs : List Char) (i : Nat) : Option String :=
  let tail := cs.drop (i + 13)
  let t1 := tail.drop (tail.takeWhile pyIsSpace).length
  let ds := t1.takeWhile Char.isDigit
  if ds = [] then none else some (String.mk ds)

/-- The `re.search` for the claim number. -/
def claimNumberSearch (text : String) : Option String :=
  (labelPositions "Claim Number:" text.toList).findSome? (claimNumberAt text.toList)

/-- `Policy Number:\s*([\d-]+)`: like the claim number with the class
`[\d-]`. -/
def policyNumberAt (cs : List Char) (i : Nat) : Option String :=
  let tail := cs.drop (i + 14)
  let t1 := tail.drop (tail.takeWhile pyIsSpace).length
  let ds := t1.takeWhile (fun c => c.isDigit || c = '-')
  if ds = [] then none else some (String.mk ds)

/-- The `re.search` for the policy number. -/
def policyNumberSearch (text : String) : Option String :=
  (labelPositions "Policy Number:" text.toList).findSome? (policyNumberAt text.toList)

/-- `Date of Loss:\s*(\d{1,2}/\d{1,2}/\d{2,4})`: each day/month digit
run must have length 1 or 2 and be followed by a slash (a longer run
cannot backtrack into a match because the next character would still
be a digit); the year takes two to four digits greedily. -/
def dateOfLossAt (cs : List Char) (i : Nat) : Option String :=
  let tail := cs.drop (i + 13)
  let t1 := tail.drop (tail.takeWhile pyIsSpace).length
  let d1 := t1.takeWhile Char.isDigit
  if d1 = [] || d1.length > 2 then none
  else
    match t1.drop d1.length with
    | '/' :: t2 =>
      let d2 := t2.takeWhile Char.isDigit
      if d2 = [] || d2.length > 2 then none
      else
        match t2.drop d2.length with
        | '/' :: t3 =>
          let d3 := t3.takeWhile Char.isDigit
          if d3.length < 2 then none
          else some (String.mk (d1 ++ ['/'] ++ d2 ++ ['/'] ++ d3.take 4))
        | _ => none
    | _ => none

/-- The `re.search` for the date of loss. -/
def dateOfLossSearch (text : String) : Option String :=
  (labelPositions "Date of Loss:" text.toList).findSome? (dateOfLossAt text.toList)

/-- Apply one optional header-field update. -/
def applyHeaderField (h : List (String × String)) (key : String)
    (found : Option String) : List (String × String) :=
  match found with
  | some v => setHeaderKey h key v
  | none => h

/-- Source `_extract_header_data`: the five independent anchored
searches, each optionally storing its field into `self.header_data`. -/
def extractHeaderData (h : List (String × String)) (text : String) :
    List (String × String) :=
  let h1 := applyHeaderField h "insured_name" (insuredSearch text)
  let h2 := applyHeaderField h1 "property_address" (propertySearch text)
  let h3 := applyHeaderField h2 "claim_number" (claimNumberSearch text)
  let h4 := applyHeaderField h3 "policy_number" (policyNumberSearch text)
  applyHeaderField h4 "date_of_loss" (dateOfLossSearch text)

/-- The totals block of a successful response. -/
structure Totals where
  rcv : ℚ
  depreciation : ℚ
  acv : ℚ
  deductible : ℚ
  net_claim : ℚ
deriving DecidableEq, Repr

/-- The metadata block of a successful response. -/
structure MetaInfo where
  total_line_items : Nat
  total_categories : Nat
  rooms : List String
  duplicates_removed : Nat
deriving DecidableEq, Repr

/-- The successful-response payload. -/
structure SuccessPayload where
  header : List (String × String)
  line_items : List LineItem
  categories : List CategorySummary
  totals : Totals
  metadata : MetaInfo
deriving DecidableEq, Repr

/-- The result dictionary `_build_response` returns: either the
failure envelope with its error string, or the success payload. -/
inductive ParseResponse where
  | failure (error : String)
  | success (payload : SuccessPayload)
deriving DecidableEq, Repr

/-- The parser's instance state: `self.line_items`,
`self.categories` and `self.header_data`, exactly the fields
`__init__` creates (and the only ones the text pipeline mutates). -/
structure PState where
  line_items : List LineItem
  categories : List (String × CategorySummary)
  header_data : List (String × String)
deriving DecidableEq, Repr

/-- The fresh state `__init__` builds. -/
def initPState : PState := ⟨[], [], []⟩

/-- First-occurrence deduplication of a string list.  Python renders
`metadata.rooms` as `list(set(...))`, whose iteration order is
unspecified (string hashing is salted per process); the claims never
depend on that order and we fix first-occurrence order. -/
def dedupStringsAux (seen : List String) : List String → List String
  | [] => []
  | s :: rest =>
    if s ∈ seen then dedupStringsAux seen rest
    else s :: dedupStringsAux (s :: seen) rest

/-- First-occurrence deduplication of a string list. -/
def dedupStrings (l : List String) : List String :=
  dedupStringsAux [] l

/-- The rooms of the metadata block: rooms of items whose `room` field
is truthy (present and nonempty). -/
def roomsOf (items : List LineItem) : List String :=
  dedupStrings (items.filterMap (fun it =>
    match it.room with
    | some r => if r ≠ "" then some r else none
    | none => none))

/-- Source `_build_response` over the instance state.  Notes tied to
the source text:
* the failure branch fires exactly when `self.line_items` is empty and
  carries the literal error string with a capital N;
* `totals.deductible` is `self.header_data.get(str, 0)` for the key
  `deductible`; the header extractor stores only string values and
  never that key (theorem `extractHeaderData_no_deductible` below), so
  the integer default `0` is the only reachable value and is inlined;
* `metadata.duplicates_removed` is
  `getattr(self, chr(95) ++ ..., 0)` for an attribute no method of the
  class ever assigns, so the default `0` is the only reachable value
  and is inlined (see the C3 analysis). -/
def buildResponse (st : PState) : ParseResponse :=
  if st.line_items = [] then
    ParseResponse.failure "No line items found in estimate"
  else
    let totalRcv := (st.line_items.map (fun it => it.rcv)).sum
    let totalDepreciation := (st.line_items.map (fun it => it.depreciation)).sum
    let totalAcv := (st.line_items.map (fun it => it.acv)).sum
    ParseResponse.success
      { header := st.header_data
        line_items := st.line_items
        categories := sortCategories (st.categories.map (fun p => p.2))
        totals :=
          { rcv := pyRound2 totalRcv
            depreciation := pyRound2 totalDepreciation
            acv := pyRound2 totalAcv
            deductible := 0
            net_claim := pyRound2 (totalAcv - 0) }
        metadata :=
          { total_line_items := st.line_items.length
            total_categories := st.categories.length
            rooms := roomsOf st.line_items
            duplicates_removed := 0 } }

/-- The text pipeline of `_parse_with_pymupdf`/`_parse_with_pdfplumber`
once the text string is in hand: header extraction, line-item
extraction (appending to the instance's accumulated items), in-place
deduplication, category aggregation, response assembly.  Returns the
mutated instance state together with the response. -/
def runParse (st : PState) (text : String) : PState × ParseResponse :=
  let h := extractHeaderData st.header_data text
  let lines := pySplitLines text
  let items := scanLines lines none st.line_items
  let uniq := removeDuplicateLineItems items
  let cats := buildCategoriesFromItems st.categories uniq
  let st' : PState := ⟨uniq, cats, h⟩
  (st', buildResponse st')

/-- A parse on a fresh parser instance, as the service layer performs
it for each request. -/
def parseText (text : String) : ParseResponse :=
  (runParse initPState text).2

/-- The items extraction alone produces on a fresh instance. -/
def extractedItems (text : String) : List LineItem :=
  scanLines (pySplitLines text) none []

/-- Accessor: the error string of a failure response. -/
def ParseResponse.errMsg? : ParseResponse → Option String
  | .failure e => some e
  | .success _ => none

/-- Accessor: whether the response is the failure envelope. -/
def ParseResponse.isFailureB : ParseResponse → Bool
  | .failure _ => true
  | .success _ => false

/-- Accessor: whether the response is a success. -/
def ParseResponse.isSuccessB : ParseResponse → Bool
  | .failure _ => false
  | .success _ => true

/-- Accessor: the line items of a successful response. -/
def ParseResponse.lineItems? : ParseResponse → Option (List LineItem)
  | .failure _ => none
  | .success p => some p.line_items

/-- Accessor: the category list of a successful response. -/
def ParseResponse.catList? : ParseResponse → Option (List CategorySummary)
  | .failure _ => none
  | .success p => some p.categories

/-- Accessor: the totals of a successful response. -/
def ParseResponse.totalsOf? : ParseResponse → Option Totals
  | .failure _ => none
  | .success p => some p.totals

/-- Accessor: the metadata of a successful response. -/
def ParseResponse.metaOf? : ParseResponse → Option MetaInfo
  | .failure _ => none
  | .success p => some p.metadata

/-- Renumbering an item by an offset; only `line_number` changes.  Used
to relate extractions that start from differently sized accumulated
item lists. -/
def bumpItem (k : Nat) (it : LineItem) : LineItem :=
  { it with line_number := it.line_number + k }

/-- Modelled from the spec: the deduplication behaviour in the spec's
own words — the first occurrence of each composite key is kept (with
all its fields unchanged) and every later item whose key already
occurred is dropped, preserving relative order.  Compared against the
source's `removeDuplicateLineItems` in claim C4. -/
def dedupSpec : List LineItem → List LineItem
  | [] => []
  | x :: xs => x :: dedupSpec (xs.filter (fun y => dedupKey y ≠ dedupKey x))
termination_by l => l.length
decreasing_by
  simp only [List.length_cons]
  exact Nat.lt_succ_of_le (List.length_filter_le _ _)

/-- Modelled from the spec: the "strict six-token shape
`qty unit price rcv (depreciation) acv`" the spec says the single-line
layout requires — the unit is 2-3 uppercase letters, numeric tokens may
contain commas and periods, depreciation is parenthesised.  Compared
against the source's `singleLineMatch` in claim C5. -/
def specSixTokenShape (s : String) : Bool :=
  match (pyWords s).map (fun w => w.toList) with
  | [w1, w2, w3, w4, w5, w6] =>
    isNumTok w1 && isUnitTok w2 && isNumTok w3 && isNumTok w4 &&
    isParenNumTok w5 && isNumTok w6
  | _ => false

/-- All numeric tokens of a single-line data line convert without a
`ValueError` (the proviso under which the single-line branch commits
its item rather than logging a caught exception). -/
def singleLineTokensOk (s : String) : Bool :=
  match pyWords s with
  | [_, q, _, p, r, d, a] =>
    (parseNumber q).isSome && (parseCurrency p).isSome && (parseCurrency r).isSome &&
    (parseCurrency d).isSome && (parseCurrency a).isSome
  | _ => false

/-- Sum of the `rcv` fields (the generator expression of
`_build_response`; Python's `sum` and `List.sum` agree on rationals). -/
def sumRcv (l : List LineItem) : ℚ := (l.map (fun it => it.rcv)).sum

/-- Sum of the `depreciation` fields. -/
def sumDepreciation (l : List LineItem) : ℚ := (l.map (fun it => it.depreciation)).sum

/-- Sum of the `acv` fields. -/
def sumAcv (l : List LineItem) : ℚ := (l.map (fun it => it.acv)).sum

/-- The concrete single-line document of the spec's worked example
(claims C6, and witness input elsewhere). -/
def exampleDocSingle : String :=
  "5. Remove wet drywall\n5 120.00 SF 1.25 150.00 (30.00) 120.00"

/-- A one-item document whose lone item is categorised CLEANING; used
to exhibit state accumulation across two parses on one instance. -/
def docClean : String :=
  "1. Clean floor\n1 2.00 SF 1.25 150.00 (30.00) 120.00"

/-- A document with two identical items (same description, quantity
and unit), so deduplication drops exactly one. -/
def docDup : String :=
  "1. Clean floor\n1 2.00 SF 1.25 150.00 (30.00) 120.00\n2. Clean floor\n2 2.00 SF 1.25 150.00 (30.00) 120.00"

/-- A header line followed by a data line in the spec's literal
six-token shape (no leading line-number token). -/
def docSixTok : String :=
  "1. Widget repair\n120.00 SF 1.25 150.00 (30.00) 120.00"

/-- The six-token data line of `docSixTok` alone. -/
def sixTokLine : String := "120.00 SF 1.25 150.00 (30.00) 120.00"

/-- A document whose single item carries an `rcv` with three decimal
places, so the rounded total differs from the raw sum. -/
def docThreeDecimals : String :=
  "1. Fix thing\n1 1.00 EA 1.00 1.234 (0.50) 0.70"

/-- The full successful payload produced for `exampleDocSingle`
(checked by evaluation in the witnesses below). -/
def examplePayload : SuccessPayload :=
  { header := []
    line_items := [⟨1, none, "Remove wet drywall", 120, "SF", 5/4, 0, 0, 150, 30, 120,
                    "GENERAL DEMOLITION"⟩]
    categories := [⟨"GENERAL DEMOLITION", 150, 30, 120, 1, ["Remove wet drywall"]⟩]
    totals := ⟨150, 30, 120, 0, 120⟩
    metadata := ⟨1, 1, [], 0⟩ }

unseal Rat.mul Rat.inv Rat.add Rat.sub

theorem dedup_nil_iff (items : List LineItem) :
    removeDuplicateLineItems items = [] ↔ items = [] := by
  cases items with
  | nil => simp [removeDuplicateLineItems, dedupGo]
  | cons x xs => simp [removeDuplicateLineItems, dedupGo]

/-- C6: for the concrete header line and data line of the spec's worked
example, the extractor produces exactly one item with quantity 120.00,
unit SF, unit price 1.25, rcv 150.00, depreciation 30.00 (the wrapping
parentheses are stripped, not negated), acv 120.00, and defaulted
tax = 0.0 and o_and_p = 0.0. -/
theorem C6_single_line_example :
    (parseText exampleDocSingle).lineItems? =
      some [⟨1, none, "Remove wet drywall", 120, "SF", 5/4, 0, 0, 150, 30, 120,
             "GENERAL DEMOLITION"⟩] := by decide

/-- C3: on a document with two items that agree on description,
quantity and unit, extraction finds two items, deduplication keeps one
(so exactly one was dropped), yet the reported
`metadata.duplicates_removed` is 0 — the source reads an attribute the
deduplication pass never stores. -/
theorem C3_duplicates_removed_always_zero :
    (extractedItems docDup).length = 2 ∧
    (parseText docDup).lineItems? =
      some [⟨1, none, "Clean floor", 2, "SF", 5/4, 0, 0, 150, 30, 120, "CLEANING"⟩] ∧
    (parseText docDup).metaOf? = some ⟨1, 1, [], 0⟩ := by decide

/-- C1 counterexample: on an input with no line items the parse does
fail, but the failure reason is the source's literal string with a
capital N, not the lowercase string the claim names. -/
theorem C1_claim_counterexample :
    extractedItems "" = [] ∧
    parseText "" = ParseResponse.failure "No line items found in estimate" ∧
    parseText "" ≠ ParseResponse.failure "no line items found in estimate" := by decide

/-- C1 (amended): once text is supplied the parse fails exactly when
zero line items survive extraction, every failure carries the reason
string (capitalised as in the source) and a nonempty extraction always
yields a success response. -/
theorem C1_failure_iff_no_items (text : String) :
    ((parseText text).isFailureB = true ↔ extractedItems text = []) ∧
    ((parseText text).isFailureB = true →
      (parseText text).errMsg? = some "No line items found in estimate") ∧
    (extractedItems text ≠ [] → (parseText text).isSuccessB = true) := by
  have hIff := dedup_nil_iff (extractedItems text)
  have hresp : parseText text = buildResponse
      ⟨removeDuplicateLineItems (extractedItems text),
       buildCategoriesFromItems [] (removeDuplicateLineItems (extractedItems text)),
       extractHeaderData [] text⟩ := rfl
  by_cases hE : extractedItems text = []
  · have hU : removeDuplicateLineItems (extractedItems text) = [] := hIff.mpr hE
    have hP : parseText text = ParseResponse.failure "No line items found in estimate" := by
      rw [hresp]; dsimp only [buildResponse]; rw [if_pos hU]
    refine ⟨?_, ?_, ?_⟩ <;>
      simp [hP, hE, ParseResponse.isFailureB, ParseResponse.errMsg?, ParseResponse.isSuccessB]
  · have hU : removeDuplicateLineItems (extractedItems text) ≠ [] := fun h => hE (hIff.mp h)
    refine ⟨?_, ?_, ?_⟩ <;>
      rw [hresp] <;> dsimp only [buildResponse] <;> rw [if_neg hU] <;>
      simp [hE, ParseResponse.isFailureB, ParseResponse.errMsg?, ParseResponse.isSuccessB]

/-- C1 witness: concrete instantiations discharging the hypotheses of
`C1_failure_iff_no_items` on a failing and a succeeding document. -/
theorem C1_failure_iff_no_items_witness :
    (parseText "xyz").errMsg? = some "No line items found in estimate" ∧
    (parseText exampleDocSingle).isSuccessB = true :=
  ⟨(C1_failure_iff_no_items "xyz").2.1 (by decide),
   (C1_failure_iff_no_items exampleDocSingle).2.2 (by decide)⟩

theorem strLeListb_total : ∀ as bs : List Char, strLeListb as bs = true ∨ strLeListb bs as = true
  | [], _ => Or.inl rfl
  | _ :: _, [] => Or.inr rfl
  | a :: as, b :: bs => by
    simp only [strLeListb]
    rcases Nat.lt_trichotomy a.toNat b.toNat with h | h | h
    · left; simp [h]
    · have h1 : ¬ a.toNat < b.toNat := by omega
      have h2 : ¬ b.toNat < a.toNat := by omega
      rcases strLeListb_total as bs with ih | ih
      · left; simp [h1, h2, ih]
      · right; simp [h1, h2, ih]
    · right; simp [h]

theorem strLeListb_trans : ∀ as bs cs : List Char,
    strLeListb as bs = true → strLeListb bs cs = true → strLeListb as cs = true
  | [], _, _ => fun _ _ => rfl
  | _ :: _, [], _ => by intro h _; simp [strLeListb] at h
  | _ :: _, _ :: _, [] => by intro _ h; simp [strLeListb] at h
  | a :: as, b :: bs, c :: cs => by
    intro h1 h2
    simp only [strLeListb] at h1 h2 ⊢
    by_cases hab : a.toNat < b.toNat
    · by_cases hbc : b.toNat < c.toNat
      · simp [Nat.lt_trans hab hbc]
      · rw [if_neg hbc] at h2
        by_cases hcb : c.toNat < b.toNat
        · rw [if_pos hcb] at h2; simp at h2
        · have hac : a.toNat < c.toNat := by omega
          simp [hac]
    · rw [if_neg hab] at h1
      by_cases hba : b.toNat < a.toNat
      · rw [if_pos hba] at h1; simp at h1
      · rw [if_neg hba] at h1
        by_cases hbc : b.toNat < c.toNat
        · have hac : a.toNat < c.toNat := by omega
          simp [hac]
        · rw [if_neg hbc] at h2
          by_cases hcb : c.toNat < b.toNat
          · rw [if_pos hcb] at h2; simp at h2
          · rw [if_neg hcb] at h2
            have h3 : ¬ a.toNat < c.toNat := by omega
            have h4 : ¬ c.toNat < a.toNat := by omega
            rw [if_neg h3, if_neg h4]
            exact strLeListb_trans as bs cs h1 h2

theorem keyLeb_total (x y : Nat × Nat × String) : keyLeb x y = true ∨ keyLeb y x = true := by
  unfold keyLeb
  by_cases h1 : x.1 = y.1
  · by_cases h2 : x.2.1 = y.2.1
    · simp [h1, h2]
      exact strLeListb_total _ _
    · simp [h1, h2, Ne.symm h2]
  · simp [h1, Ne.symm h1]

theorem keyLeb_trans (x y z : Nat × Nat × String) :
    keyLeb x y = true → keyLeb y z = true → keyLeb x z = true := by
  intro h1 h2
  unfold keyLeb at *
  by_cases e1 : x.1 = y.1 <;> by_cases e2 : y.1 = z.1
  · rw [if_pos e1] at h1; rw [if_pos e2] at h2; rw [if_pos (e1.trans e2)]
    by_cases f1 : x.2.1 = y.2.1 <;> by_cases f2 : y.2.1 = z.2.1
    · rw [if_pos f1] at h1; rw [if_pos f2] at h2; rw [if_pos (f1.trans f2)]
      exact strLeListb_trans _ _ _ h1 h2
    · rw [if_pos f1] at h1; rw [if_neg f2] at h2
      rw [if_neg (f1 ▸ f2)]
      exact f1 ▸ h2
    · rw [if_neg f1] at h1; rw [if_pos f2] at h2
      rw [if_neg (f2 ▸ f1)]
      exact f2 ▸ h1
    · rw [if_neg f1] at h1; rw [if_neg f2] at h2
      simp only [decide_eq_true_eq] at h1 h2 ⊢
      have f3 : ¬ x.2.1 = z.2.1 := by omega
      rw [if_neg f3]
      simp only [decide_eq_true_eq]
      omega
  · rw [if_pos e1] at h1; rw [if_neg e2] at h2
    rw [if_neg (e1 ▸ e2)]
    exact e1 ▸ h2
  · rw [if_neg e1] at h1; rw [if_pos e2] at h2
    rw [if_neg (e2 ▸ e1)]
    exact e2 ▸ h1
  · rw [if_neg e1] at h1; rw [if_neg e2] at h2
    simp only [decide_eq_true_eq] at h1 h2 ⊢
    have e3 : ¬ x.1 = z.1 := by omega
    rw [if_neg e3]
    simp only [decide_eq_true_eq]
    omega

theorem mem_ite_str {c : Prop} [Decidable c] {a b : String} {l : List String}
    (ha : a ∈ l) (hb : b ∈ l) : (if c then a else b) ∈ l := by
  split <;> assumption

/-- C7: the categorizer is a total function into the fixed label set
(each description maps to exactly one label by construction of the
cascade), and the precedence resolves the spec's three examples:
insulated exterior door to DOORS, floor perimeter to the painting and
wall-finish category, and deduction notes to GENERAL. -/
theorem C7_categorizer_examples :
    determineCategory "Insulated exterior door" = "DOORS" ∧
    determineCategory "Floor perimeter - 1st floor" = "PAINTING & WOOD WALL FINISHES" ∧
    determineCategory "Deduct for used cabinet" = "GENERAL" ∧
    (∀ d : String, determineCategory d ∈ allCategoryLabels) := by
  refine ⟨by decide, by decide, by decide, ?_⟩
  intro d
  unfold determineCategory determineCategoryUpper
  repeat (refine mem_ite_str (by decide) ?_)
  decide

/-- C8: `_sort_categories` permutes its input into the key order
(priority labels first in the fixed order, then the rest alphabetically
— this is exactly the `get_sort_key` comparison), every successful
parse result carries its categories in that order, and the spec's
example sorts to CLEANING, APPLE, ZEBRA. -/
theorem C8_categories_sorted :
    (∀ cats : List CategorySummary,
      (sortCategories cats).Perm cats ∧ (sortCategories cats).Sorted catKeyLe) ∧
    (∀ text l, (parseText text).catList? = some l → l.Sorted catKeyLe) ∧
    ((sortCategories [⟨"ZEBRA", 0, 0, 0, 0, []⟩, ⟨"CLEANING", 0, 0, 0, 0, []⟩,
        ⟨"APPLE", 0, 0, 0, 0, []⟩]).map (fun c => c.name) = ["CLEANING", "APPLE", "ZEBRA"]) := by
  haveI hTot : IsTotal CategorySummary catKeyLe := ⟨fun a b => keyLeb_total _ _⟩
  haveI hTr : IsTrans CategorySummary catKeyLe := ⟨fun _ _ _ h1 h2 => keyLeb_trans _ _ _ h1 h2⟩
  refine ⟨fun cats => ⟨List.perm_insertionSort catKeyLe cats,
    List.sorted_insertionSort catKeyLe cats⟩, ?_, by decide⟩
  intro text l h
  have hresp : parseText text = buildResponse
      ⟨removeDuplicateLineItems (extractedItems text),
       buildCategoriesFromItems [] (removeDuplicateLineItems (extractedItems text)),
       extractHeaderData [] text⟩ := rfl
  rw [hresp] at h
  dsimp only [buildResponse] at h
  by_cases hU : removeDuplicateLineItems (extractedItems text) = []
  · rw [if_pos hU] at h
    simp [ParseResponse.catList?] at h
  · rw [if_neg hU] at h
    simp only [ParseResponse.catList?, Option.some.injEq] at h
    rw [← h]
    exact List.sorted_insertionSort catKeyLe _

/-- C8 witness: the sortedness of a concrete successful parse's
category sequence, via `C8_categories_sorted`. -/
theorem C8_categories_sorted_witness :
    List.Sorted catKeyLe [(⟨"GENERAL DEMOLITION", 150, 30, 120, 1, ["Remove wet drywall"]⟩ :
      CategorySummary)] :=
  C8_categories_sorted.2.1 exampleDocSingle _ (by decide)

/-- C2 counterexample: parsing the same one-item text twice on the same
parser instance is not byte-identical — the instance's category map is
never cleared, so the second response's category aggregates are
doubled; and the re-extracted items are numbered continuing from the
accumulated list (2), not restarting at 1. -/
theorem C2_claim_counterexample :
    (runParse (runParse initPState docClean).1 docClean).2 ≠
      (runParse initPState docClean).2 ∧
    ((runParse (runParse initPState docClean).1 docClean).2).catList? =
      some [⟨"CLEANING", 300, 60, 240, 2, ["Clean floor"]⟩] ∧
    ((runParse initPState docClean).2).catList? =
      some [⟨"CLEANING", 150, 30, 120, 1, ["Clean floor"]⟩] ∧
    (scanLines (pySplitLines docClean) none
        (runParse initPState docClean).1.line_items).map (fun it => it.line_number) =
      [1, 2] := by decide

/-- C5 counterexample: a data line in the spec's literal six-token
shape (`qty unit price rcv (depreciation) acv`) does not match the
source's single-line pattern — the pattern demands a seventh, leading
all-digit token — so a header followed by exactly that line yields no
item at all instead of one committed item. -/
theorem C5_claim_counterexample :
    specSixTokenShape sixTokLine = true ∧
    (itemHeaderMatch (pyStrip "1. Widget repair")).isSome = true ∧
    singleLineMatch sixTokLine = false ∧
    extractedItems docSixTok = [] ∧
    (parseText docSixTok).isFailureB = true := by decide

/-- C9 counterexample: a successful parse whose single item has
rcv = 1.234; the reported `totals.rcv` is the rounded 1.23, which is
not the sum (1.234) of the items' rcv values. -/
theorem C9_claim_counterexample :
    (parseText docThreeDecimals).lineItems? =
      some [⟨1, none, "Fix thing", 1, "EA", 1, 0, 0, 617/500, 1/2, 7/10, "GENERAL"⟩] ∧
    (parseText docThreeDecimals).totalsOf? = some ⟨123/100, 1/2, 7/10, 0, 7/10⟩ ∧
    sumRcv [⟨1, none, "Fix thing", 1, "EA", 1, 0, 0, 617/500, 1/2, 7/10, "GENERAL"⟩] = 617/500 ∧
    (123 : ℚ)/100 ≠ 617/500 := by decide

theorem setHeaderKey_lookup_ne (m : List (String × String)) (k k' v : String)
    (h : k ≠ k') : ((setHeaderKey m k' v).lookup k) = m.lookup k := by
  have hbeq : (k == k') = false := beq_eq_false_iff_ne.mpr h
  induction m with
  | nil => simp [setHeaderKey, List.lookup, hbeq]
  | cons p rest ih =>
    by_cases hp : p.1 = k'
    · simp only [setHeaderKey, if_pos hp, List.lookup]
      have h1 : (k == k') = false := by simp [h]
      have h2 : (k == p.1) = false := by simp [hp ▸ h]
      simp [h1, h2]
    · simp only [setHeaderKey, if_neg hp, List.lookup]
      cases hkp : (k == p.1) <;> simp [ih]

theorem applyHeaderField_lookup_ne (h : List (String × String)) (key k : String)
    (found : Option String) (hne : k ≠ key) :
    ((applyHeaderField h key found).lookup k) = h.lookup k := by
  cases found with
  | none => rfl
  | some v => exact setHeaderKey_lookup_ne h k key v hne

theorem extractHeaderData_lookup_deductible (h : List (String × String)) (text : String) :
    ((extractHeaderData h text).lookup "deductible") = h.lookup "deductible" := by
  unfold extractHeaderData
  rw [applyHeaderField_lookup_ne _ _ _ _ (by decide)]
  rw [applyHeaderField_lookup_ne _ _ _ _ (by decide)]
  rw [applyHeaderField_lookup_ne _ _ _ _ (by decide)]
  rw [applyHeaderField_lookup_ne _ _ _ _ (by decide)]
  rw [applyHeaderField_lookup_ne _ _ _ _ (by decide)]

/-- C10: the header extractor has no pattern for a deductible field —
for every text the extracted header mapping of a fresh parse has no
`deductible` key — and consequently every successful result reports
`totals.deductible = 0` and `totals.net_claim = totals.acv`. -/
theorem C10_no_deductible :
    (∀ text : String, ((extractHeaderData [] text).lookup "deductible") = none) ∧
    (∀ text p, parseText text = ParseResponse.success p →
      (p.header.lookup "deductible") = none ∧ p.totals.deductible = 0 ∧
      p.totals.net_claim = p.totals.acv) := by
  have hbase : ∀ text : String, ((extractHeaderData [] text).lookup "deductible") = none :=
    fun text => extractHeaderData_lookup_deductible [] text
  refine ⟨hbase, ?_⟩
  intro text p h
  have hresp : parseText text = buildResponse
      ⟨removeDuplicateLineItems (extractedItems text),
       buildCategoriesFromItems [] (removeDuplicateLineItems (extractedItems text)),
       extractHeaderData [] text⟩ := rfl
  rw [hresp] at h
  dsimp only [buildResponse] at h
  by_cases hU : removeDuplicateLineItems (extractedItems text) = []
  · rw [if_pos hU] at h
    exact absurd h (by simp)
  · rw [if_neg hU] at h
    have hp : p = _ := ((ParseResponse.success.injEq _ _).mp h).symm
    subst hp
    refine ⟨hbase text, rfl, ?_⟩
    dsimp only
    rw [sub_zero]

/-- C10 witness: the concrete successful parse of the worked example
has no deductible key, a zero deductible and `net_claim = acv`. -/
theorem C10_no_deductible_witness :
    (examplePayload.header.lookup "deductible") = none ∧
    examplePayload.totals.deductible = 0 ∧
    examplePayload.totals.net_claim = examplePayload.totals.acv :=
  C10_no_deductible.2 exampleDocSingle examplePayload (by decide)

/-- C9 (amended): for every successful parse, each reported total is
the corresponding per-item sum rounded to two decimals with Python's
half-to-even `round` (the claim's raw-sum equality fails whenever a sum
carries more than two decimals — see the counterexample), the
deductible defaults to 0, and `net_claim` is the rounded difference of
the acv sum and the deductible. -/
theorem C9_totals_rounded_sums (text : String) (p : SuccessPayload)
    (h : parseText text = ParseResponse.success p) :
    p.totals.rcv = pyRound2 (sumRcv p.line_items) ∧
    p.totals.depreciation = pyRound2 (sumDepreciation p.line_items) ∧
    p.totals.acv = pyRound2 (sumAcv p.line_items) ∧
    p.totals.deductible = 0 ∧
    p.totals.net_claim = pyRound2 (sumAcv p.line_items - p.totals.deductible) := by
  have hresp : parseText text = buildResponse
      ⟨removeDuplicateLineItems (extractedItems text),
       buildCategoriesFromItems [] (removeDuplicateLineItems (extractedItems text)),
       extractHeaderData [] text⟩ := rfl
  rw [hresp] at h
  dsimp only [buildResponse] at h
  by_cases hU : removeDuplicateLineItems (extractedItems text) = []
  · rw [if_pos hU] at h
    exact absurd h (by simp)
  · rw [if_neg hU] at h
    have hp : p = _ := ((ParseResponse.success.injEq _ _).mp h).symm
    subst hp
    exact ⟨rfl, rfl, rfl, rfl, rfl⟩

/-- C9 witness: the rounded-sum equalities instantiated on the worked
example's successful parse. -/
theorem C9_totals_rounded_sums_witness :
    parseText exampleDocSingle = ParseResponse.success examplePayload ∧
    (examplePayload.totals.rcv = pyRound2 (sumRcv examplePayload.line_items) ∧
     examplePayload.totals.depreciation = pyRound2 (sumDepreciation examplePayload.line_items) ∧
     examplePayload.totals.acv = pyRound2 (sumAcv examplePayload.line_items) ∧
     examplePayload.totals.deductible = 0 ∧
     examplePayload.totals.net_claim =
       pyRound2 (sumAcv examplePayload.line_items - examplePayload.totals.deductible)) :=
  ⟨by decide, C9_totals_rounded_sums exampleDocSingle examplePayload (by decide)⟩

theorem dedupGo_sublist : ∀ (items : List LineItem) (seen),
    (dedupGo seen items).Sublist items
  | [], _ => List.Sublist.slnil
  | it :: rest, seen => by
    unfold dedupGo
    split
    · exact (dedupGo_sublist rest seen).cons it
    · exact (dedupGo_sublist rest (dedupKey it :: seen)).cons₂ it

theorem dedupGo_eq_dedupSpec : ∀ (items : List LineItem) (seen : List (String × ℚ × String)),
    dedupGo seen items = dedupSpec (items.filter (fun y => decide (dedupKey y ∉ seen)))
  | [], seen => by simp [dedupGo, dedupSpec]
  | it :: rest, seen => by
    by_cases hk : dedupKey it ∈ seen
    · rw [dedupGo, if_pos hk]
      have h1 : (List.filter (fun y => decide (dedupKey y ∉ seen)) (it :: rest)) =
          List.filter (fun y => decide (dedupKey y ∉ seen)) rest := by
        simp [List.filter_cons, hk]
      rw [h1]
      exact dedupGo_eq_dedupSpec rest seen
    · rw [dedupGo, if_neg hk]
      have h1 : (List.filter (fun y => decide (dedupKey y ∉ seen)) (it :: rest)) =
          it :: List.filter (fun y => decide (dedupKey y ∉ seen)) rest := by
        simp [List.filter_cons, hk]
      rw [h1]
      simp only [dedupSpec]
      congr 1
      rw [dedupGo_eq_dedupSpec rest (dedupKey it :: seen), List.filter_filter]
      congr 1
      refine List.filter_congr ?_
      intro y _
      by_cases hy1 : dedupKey y = dedupKey it <;> by_cases hy2 : dedupKey y ∈ seen <;>
        simp [hy1, hy2]

/-- C4: `_remove_duplicate_line_items` computes exactly the spec's
first-occurrence filter — an item survives precisely when its composite
key (uppercased trimmed description, quantity, uppercased unit) has not
occurred earlier in extraction order, the first occurrence is retained
unchanged (later duplicates' monetary values are discarded, never
merged), and the survivors form a sublist, keeping the original
relative order. -/
theorem C4_dedup_first_occurrence (items : List LineItem) :
    removeDuplicateLineItems items = dedupSpec items ∧
    (removeDuplicateLineItems items).Sublist items := by
  constructor
  · have h := dedupGo_eq_dedupSpec items []
    simpa [removeDuplicateLineItems] using h
  · exact dedupGo_sublist items []

theorem digit_not_upper (c : Char) (h : c.isDigit = true) : isUpperAZ c = false := by
  unfold isUpperAZ
  unfold Char.isDigit at h
  simp only [Bool.and_eq_true, decide_eq_true_eq] at h
  by_contra hb
  simp only [Bool.not_eq_false, Bool.and_eq_true, decide_eq_true_eq] at hb
  have hle : ('A' : Char) ≤ '9' := le_trans hb.1 h.2
  exact absurd hle (by decide)

theorem numclass_not_upper (c : Char) (h : isNumClass c = true) : isUpperAZ c = false := by
  unfold isNumClass at h
  simp only [Bool.or_eq_true, decide_eq_true_eq] at h
  rcases h with (h | h) | h
  · exact digit_not_upper c h
  · subst h; decide
  · subst h; decide

theorem numTok_not_unit (w : List Char) (h : isNumTok w = true) : isUnitTok w = false := by
  unfold isNumTok at h
  simp only [Bool.and_eq_true] at h
  cases w with
  | nil => simp at h
  | cons c cs =>
    unfold isUnitTok
    have hc : isNumClass c = true := by
      have h2 := h.2
      simp only [List.all_cons, Bool.and_eq_true] at h2
      exact h2.1
    have hn : isUpperAZ c = false := numclass_not_upper c hc
    simp [List.all_cons, hn]

theorem digitsTok_numTok (w : List Char) (h : isDigitsTok w = true) : isNumTok w = true := by
  unfold isDigitsTok at h
  unfold isNumTok
  simp only [Bool.and_eq_true, List.all_eq_true] at h ⊢
  refine ⟨h.1, fun c hc => ?_⟩
  unfold isNumClass
  simp [h.2 c hc]

theorem scan_single_line_step (l nl : String) (rest : List String) (room : Option String)
    (acc : List LineItem) (n g2 : String) (it : LineItem)
    (hh : itemHeaderMatch (pyStrip l) = some (n, g2))
    (hs : singleLineMatch (pyStrip nl) = true)
    (hp : parseSingleLineFormat (pyStrip g2) (pyStrip nl)
      (roomUpdate (pyStrip l) room) acc.length = some it) :
    scanLines (l :: nl :: rest) room acc =
      scanLines (nl :: rest) (roomUpdate (pyStrip l) room) (acc ++ [it]) := by
  simp only [scanLines, hh, hs, hp, if_true]

theorem parseSingle_commits (desc dataLine : String) (room : Option String) (k : Nat)
    (w1 w2 w3 w4 w5 w6 w7 : String)
    (hw : pyWords dataLine = [w1, w2, w3, w4, w5, w6, w7])
    (h1 : isDigitsTok w1.toList = true)
    (h2 : isNumTok w2.toList = true)
    (h3 : isUnitTok w3.toList = true)
    (hq : (parseNumber w2).isSome = true)
    (hp4 : (parseCurrency w4).isSome = true)
    (hp5 : (parseCurrency w5).isSome = true)
    (hp6 : (parseCurrency w6).isSome = true)
    (hp7 : (parseCurrency w7).isSome = true) :
    ∃ it, parseSingleLineFormat desc dataLine room k = some it ∧
      it.tax = 0 ∧ it.o_and_p = 0 ∧ it.line_number = k + 1 ∧
      it.description = desc ∧ it.unit = w3 ∧ it.room = room ∧
      it.category = determineCategory desc := by
  obtain ⟨q, hq'⟩ := Option.isSome_iff_exists.mp hq
  obtain ⟨v4, h4'⟩ := Option.isSome_iff_exists.mp hp4
  obtain ⟨v5, h5'⟩ := Option.isSome_iff_exists.mp hp5
  obtain ⟨v6, h6'⟩ := Option.isSome_iff_exists.mp hp6
  obtain ⟨v7, h7'⟩ := Option.isSome_iff_exists.mp hp7
  have e1 : unitTokenMatch w1 = false := by
    unfold unitTokenMatch; exact numTok_not_unit _ (digitsTok_numTok _ h1)
  have e2 : unitTokenMatch w2 = false := by
    unfold unitTokenMatch; exact numTok_not_unit _ h2
  have e3 : unitTokenMatch w3 = true := h3
  have hfi : (([w1, w2, w3, w4, w5, w6, w7] : List String).findIdx? unitTokenMatch) = some 2 := by
    simp [List.findIdx?_cons, e1, e2, e3]
  unfold parseSingleLineFormat
  rw [hw]
  rw [if_pos (show ([w1, w2, w3, w4, w5, w6, w7] : List String).length ≥ 6 by simp)]
  simp only [hfi]
  rw [if_pos (show (2 : Nat) > 0 by norm_num)]
  rw [show ([w1, w2, w3, w4, w5, w6, w7] : List String).getD (2 - 1) "" = w2 from rfl]
  simp only [hq']
  rw [if_pos (show (([w1, w2, w3, w4, w5, w6, w7] : List String).drop (2 + 1)).length ≥ 4 by simp)]
  rw [show (([w1, w2, w3, w4, w5, w6, w7] : List String).drop (2 + 1)).getD 0 "" = w4 from rfl]
  rw [show (([w1, w2, w3, w4, w5, w6, w7] : List String).drop (2 + 1)).getD 1 "" = w5 from rfl]
  rw [show (([w1, w2, w3, w4, w5, w6, w7] : List String).drop (2 + 1)).getD 2 "" = w6 from rfl]
  rw [show (([w1, w2, w3, w4, w5, w6, w7] : List String).drop (2 + 1)).getD 3 "" = w7 from rfl]
  simp only [h4', h5', h6', h7']
  rw [show ([w1, w2, w3, w4, w5, w6, w7] : List String).getD 2 "" = w3 from rfl]
  exact ⟨_, rfl, rfl, rfl, rfl, rfl, rfl, rfl, rfl⟩

/-- C5 (amended): the single-line layout is the strict SEVEN-token
shape — a leading all-digit token (the repeated line number), a numeric
quantity, a 2-3-uppercase-letter unit, then price, rcv, parenthesised
depreciation and acv.  For a header whose next line carries seven such
whitespace-separated tokens whose numeric tokens convert, the branch
function commits exactly one item with tax and o_and_p defaulted to 0;
and when the next line matches the single-line pattern, the scanner
takes the single-line branch, appending exactly the committed item. -/
theorem C5_single_line_commit :
    (∀ (desc dataLine : String) (room : Option String) (k : Nat)
       (w1 w2 w3 w4 w5 w6 w7 : String),
      pyWords dataLine = [w1, w2, w3, w4, w5, w6, w7] →
      isDigitsTok w1.toList = true → isNumTok w2.toList = true → isUnitTok w3.toList = true →
      (parseNumber w2).isSome = true → (parseCurrency w4).isSome = true →
      (parseCurrency w5).isSome = true → (parseCurrency w6).isSome = true →
      (parseCurrency w7).isSome = true →
      ∃ it, parseSingleLineFormat desc dataLine room k = some it ∧
        it.tax = 0 ∧ it.o_and_p = 0 ∧ it.line_number = k + 1 ∧ it.description = desc ∧
        it.unit = w3 ∧ it.room = room ∧ it.category = determineCategory desc) ∧
    (∀ (l nl : String) (rest : List String) (room : Option String) (acc : List LineItem)
       (n g2 : String) (it : LineItem),
      itemHeaderMatch (pyStrip l) = some (n, g2) →
      singleLineMatch (pyStrip nl) = true →
      parseSingleLineFormat (pyStrip g2) (pyStrip nl)
        (roomUpdate (pyStrip l) room) acc.length = some it →
      scanLines (l :: nl :: rest) room acc =
        scanLines (nl :: rest) (roomUpdate (pyStrip l) room) (acc ++ [it])) :=
  ⟨parseSingle_commits, scan_single_line_step⟩

/-- C5 witness: both parts instantiated on the worked example's header
and data line. -/
theorem C5_single_line_commit_witness :
    (∃ it, parseSingleLineFormat "Remove wet drywall"
        "5 120.00 SF 1.25 150.00 (30.00) 120.00" none 0 = some it ∧
      it.tax = 0 ∧ it.o_and_p = 0 ∧ it.line_number = 0 + 1 ∧
      it.description = "Remove wet drywall" ∧ it.unit = "SF" ∧ it.room = none ∧
      it.category = determineCategory "Remove wet drywall") ∧
    scanLines ["5. Remove wet drywall", "5 120.00 SF 1.25 150.00 (30.00) 120.00"] none [] =
      scanLines ["5 120.00 SF 1.25 150.00 (30.00) 120.00"] none
        (([] : List LineItem) ++
          [⟨1, none, "Remove wet drywall", 120, "SF", 5/4, 0, 0, 150, 30, 120,
            "GENERAL DEMOLITION"⟩]) :=
  ⟨C5_single_line_commit.1 "Remove wet drywall" "5 120.00 SF 1.25 150.00 (30.00) 120.00"
      none 0 "5" "120.00" "SF" "1.25" "150.00" "(30.00)" "120.00"
      (by decide) (by decide) (by decide) (by decide) (by decide) (by decide)
      (by decide) (by decide) (by decide),
   C5_single_line_commit.2 "5. Remove wet drywall" "5 120.00 SF 1.25 150.00 (30.00) 120.00"
      [] none [] "5" "Remove wet drywall"
      ⟨1, none, "Remove wet drywall", 120, "SF", 5/4, 0, 0, 150, 30, 120, "GENERAL DEMOLITION"⟩
      (by decide) (by decide) (by decide)⟩

theorem bumpItem_comp (j k : Nat) (it : LineItem) :
    bumpItem k (bumpItem j it) = bumpItem (j + k) it := by
  simp [bumpItem, Nat.add_assoc]

theorem parseSingle_bump (desc dataLine : String) (room : Option String) (k : Nat) :
    parseSingleLineFormat desc dataLine room k =
      (parseSingleLineFormat desc dataLine room 0).map (bumpItem k) := by
  unfold parseSingleLineFormat
  dsimp only
  repeat' split
  all_goals first
    | rfl
    | (simp only [Option.map_some', Option.some.injEq, LineItem.mk.injEq, bumpItem,
        eq_self_iff_true, and_true, true_and]
       omega)

theorem parseMulti_bump (desc : String) (rest : List String) (room : Option String) (k : Nat) :
    parseMultiLineFormat desc rest room k =
      (parseMultiLineFormat desc rest room 0).map (bumpItem k) := by
  unfold parseMultiLineFormat
  dsimp only
  repeat' split
  all_goals first
    | rfl
    | (simp only [Option.map_some', Option.some.injEq, LineItem.mk.injEq, bumpItem,
        eq_self_iff_true, and_true, true_and]
       omega)

theorem scanLines_cons_none (l : String) (rest : List String) (room : Option String)
    (acc : List LineItem) (hh : itemHeaderMatch (pyStrip l) = none) :
    scanLines (l :: rest) room acc = scanLines rest (roomUpdate (pyStrip l) room) acc := by
  simp only [scanLines, hh]

theorem scanLines_cons_hdr_last (l : String) (room : Option String) (acc : List LineItem)
    (n g2 : String) (hh : itemHeaderMatch (pyStrip l) = some (n, g2)) :
    scanLines [l] room acc = acc := by
  simp only [scanLines, hh]

theorem scan_single_none (l nl : String) (rest : List String) (room : Option String)
    (acc : List LineItem) (n g2 : String)
    (hh : itemHeaderMatch (pyStrip l) = some (n, g2))
    (hs : singleLineMatch (pyStrip nl) = true)
    (hp : parseSingleLineFormat (pyStrip g2) (pyStrip nl)
      (roomUpdate (pyStrip l) room) acc.length = none) :
    scanLines (l :: nl :: rest) room acc =
      scanLines (nl :: rest) (roomUpdate (pyStrip l) room) acc := by
  simp only [scanLines, hh, hs, hp, if_true]

theorem scan_multi_some (l nl : String) (rest : List String) (room : Option String)
    (acc : List LineItem) (n g2 : String) (it : LineItem)
    (hh : itemHeaderMatch (pyStrip l) = some (n, g2))
    (hs : singleLineMatch (pyStrip nl) = false)
    (hp : parseMultiLineFormat (pyStrip g2) (nl :: rest)
      (roomUpdate (pyStrip l) room) acc.length = some it) :
    scanLines (l :: nl :: rest) room acc =
      scanLines (nl :: rest) (roomUpdate (pyStrip l) room) (acc ++ [it]) := by
  simp only [scanLines, hh, hs, hp, if_false, Bool.false_eq_true]

theorem scan_multi_none (l nl : String) (rest : List String) (room : Option String)
    (acc : List LineItem) (n g2 : String)
    (hh : itemHeaderMatch (pyStrip l) = some (n, g2))
    (hs : singleLineMatch (pyStrip nl) = false)
    (hp : parseMultiLineFormat (pyStrip g2) (nl :: rest)
      (roomUpdate (pyStrip l) room) acc.length = none) :
    scanLines (l :: nl :: rest) room acc =
      scanLines (nl :: rest) (roomUpdate (pyStrip l) room) acc := by
  simp only [scanLines, hh, hs, hp, if_false, Bool.false_eq_true]

theorem dedupGo_congr : ∀ (ys : List LineItem) (s₁ s₂ : List (String × ℚ × String)),
    (∀ k, k ∈ s₁ ↔ k ∈ s₂) → dedupGo s₁ ys = dedupGo s₂ ys
  | [], _, _, _ => rfl
  | y :: ys, s₁, s₂, h => by
    by_cases hk : dedupKey y ∈ s₁
    · rw [dedupGo, if_pos hk, dedupGo, if_pos ((h _).mp hk)]
      exact dedupGo_congr ys s₁ s₂ h
    · rw [dedupGo, if_neg hk, dedupGo, if_neg (fun hx => hk ((h _).mpr hx))]
      congr 1
      refine dedupGo_congr ys _ _ ?_
      intro k
      simp only [List.mem_cons]
      exact or_congr Iff.rfl (h k)

theorem dedupGo_append : ∀ (xs ys : List LineItem) (seen : List (String × ℚ × String)),
    dedupGo seen (xs ++ ys) = dedupGo seen xs ++ dedupGo (xs.map dedupKey ++ seen) ys
  | [], ys, seen => by simp [dedupGo]
  | x :: xs, ys, seen => by
    by_cases hk : dedupKey x ∈ seen
    · rw [List.cons_append, dedupGo, if_pos hk, dedupGo, if_pos hk,
        dedupGo_append xs ys seen]
      congr 1
      refine dedupGo_congr ys _ _ ?_
      intro k
      simp only [List.map_cons, List.cons_append, List.mem_cons, List.mem_append]
      constructor
      · rintro (h | h)
        · exact Or.inr (Or.inl h)
        · exact Or.inr (Or.inr h)
      · rintro (h | h | h)
        · subst h; exact Or.inr hk
        · exact Or.inl h
        · exact Or.inr h
    · rw [List.cons_append, dedupGo, if_neg hk, dedupGo, if_neg hk,
        dedupGo_append xs ys (dedupKey x :: seen)]
      rw [List.cons_append]
      congr 2
      refine dedupGo_congr ys _ _ ?_
      intro k
      simp only [List.map_cons, List.cons_append, List.mem_cons, List.mem_append]
      tauto

theorem dedupGo_idem : ∀ (xs : List LineItem) (seen : List (String × ℚ × String)),
    dedupGo seen (dedupGo seen xs) = dedupGo seen xs
  | [], _ => rfl
  | x :: xs, seen => by
    by_cases hk : dedupKey x ∈ seen
    · rw [dedupGo, if_pos hk]
      exact dedupGo_idem xs seen
    · rw [dedupGo, if_neg hk, dedupGo, if_neg hk]
      congr 1
      exact dedupGo_idem xs (dedupKey x :: seen)

theorem dedupGo_all_seen : ∀ (ys : List LineItem) (seen : List (String × ℚ × String)),
    (∀ y ∈ ys, dedupKey y ∈ seen) → dedupGo seen ys = []
  | [], _, _ => rfl
  | y :: ys, seen, h => by
    rw [dedupGo, if_pos (h y (List.mem_cons_self y ys))]
    exact dedupGo_all_seen ys seen (fun z hz => h z (List.mem_cons_of_mem y hz))

theorem dedupGo_key_cover : ∀ (xs : List LineItem) (seen : List (String × ℚ × String))
    (x : LineItem), x ∈ xs →
    dedupKey x ∈ seen ∨ dedupKey x ∈ (dedupGo seen xs).map dedupKey
  | [], _, _, hx => absurd hx (List.not_mem_nil _)
  | y :: xs, seen, x, hx => by
    by_cases hk : dedupKey y ∈ seen
    · rw [dedupGo, if_pos hk]
      rcases List.mem_cons.mp hx with h | h
      · subst h; exact Or.inl hk
      · exact dedupGo_key_cover xs seen x h
    · rw [dedupGo, if_neg hk]
      rcases List.mem_cons.mp hx with h | h
      · subst h
        right
        rw [List.map_cons]
        exact List.mem_cons_self _ _
      · rcases dedupGo_key_cover xs (dedupKey y :: seen) x h with hc | hc
        · rcases List.mem_cons.mp hc with h1 | h1
          · right
            rw [List.map_cons, h1]
            exact List.mem_cons_self _ _
          · exact Or.inl h1
        · right
          rw [List.map_cons]
          exact List.mem_cons_of_mem _ hc

theorem bumpItem_zero (it : LineItem) : bumpItem 0 it = it := by
  simp [bumpItem]

theorem scanLines_shift : ∀ (ls : List String) (room : Option String) (acc : List LineItem),
    scanLines ls room acc = acc ++ (scanLines ls room []).map (bumpItem acc.length)
  | [], _, acc => by simp [scanLines]
  | l :: rest, room, acc => by
    cases hh : itemHeaderMatch (pyStrip l) with
    | none =>
      rw [scanLines_cons_none l rest room acc hh, scanLines_cons_none l rest room [] hh]
      exact scanLines_shift rest _ acc
    | some p =>
      obtain ⟨n, g2⟩ := p
      cases rest with
      | nil =>
        rw [scanLines_cons_hdr_last l room acc n g2 hh,
          scanLines_cons_hdr_last l room [] n g2 hh]
        simp
      | cons nl rest2 =>
        by_cases hs : singleLineMatch (pyStrip nl) = true
        · cases hp : parseSingleLineFormat (pyStrip g2) (pyStrip nl)
            (roomUpdate (pyStrip l) room) 0 with
          | none =>
            have hpk : ∀ m : Nat, parseSingleLineFormat (pyStrip g2) (pyStrip nl)
                (roomUpdate (pyStrip l) room) m = none := fun m => by
              rw [parseSingle_bump _ _ _ m, hp]; rfl
            rw [scan_single_none l nl rest2 room acc n g2 hh hs (hpk acc.length),
              scan_single_none l nl rest2 room [] n g2 hh hs (hpk 0)]
            exact scanLines_shift (nl :: rest2) _ acc
          | some it0 =>
            have hpk : parseSingleLineFormat (pyStrip g2) (pyStrip nl)
                (roomUpdate (pyStrip l) room) acc.length =
                some (bumpItem acc.length it0) := by
              rw [parseSingle_bump _ _ _ acc.length, hp]; rfl
            have hp0 : parseSingleLineFormat (pyStrip g2) (pyStrip nl)
                (roomUpdate (pyStrip l) room) ([] : List LineItem).length = some it0 := hp
            rw [scan_single_line_step l nl rest2 room acc n g2 _ hh hs hpk,
              scan_single_line_step l nl rest2 room [] n g2 it0 hh hs hp0]
            rw [scanLines_shift (nl :: rest2) _ (acc ++ [bumpItem acc.length it0]),
              scanLines_shift (nl :: rest2) _ ([] ++ [it0])]
            simp only [List.nil_append, List.append_assoc, List.singleton_append,
              List.map_cons, List.map_map, List.length_append, List.length_cons,
              List.length_nil, List.length_singleton]
            refine congrArg (fun t => acc ++ bumpItem acc.length it0 :: t) ?_
            rw [Nat.add_comm acc.length (0 + 1)]
            refine List.map_congr_left ?_
            intro a _
            simp only [Function.comp_apply, bumpItem_comp]
        · have hs' : singleLineMatch (pyStrip nl) = false := by
            simpa using hs
          cases hp : parseMultiLineFormat (pyStrip g2) (nl :: rest2)
            (roomUpdate (pyStrip l) room) 0 with
          | none =>
            have hpk : ∀ m : Nat, parseMultiLineFormat (pyStrip g2) (nl :: rest2)
                (roomUpdate (pyStrip l) room) m = none := fun m => by
              rw [parseMulti_bump _ _ _ m, hp]; rfl
            rw [scan_multi_none l nl rest2 room acc n g2 hh hs' (hpk acc.length),
              scan_multi_none l nl rest2 room [] n g2 hh hs' (hpk 0)]
            exact scanLines_shift (nl :: rest2) _ acc
          | some it0 =>
            have hpk : parseMultiLineFormat (pyStrip g2) (nl :: rest2)
                (roomUpdate (pyStrip l) room) acc.length =
                some (bumpItem acc.length it0) := by
              rw [parseMulti_bump _ _ _ acc.length, hp]; rfl
            have hp0 : parseMultiLineFormat (pyStrip g2) (nl :: rest2)
                (roomUpdate (pyStrip l) room) ([] : List LineItem).length = some it0 := hp
            rw [scan_multi_some l nl rest2 room acc n g2 _ hh hs' hpk,
              scan_multi_some l nl rest2 room [] n g2 it0 hh hs' hp0]
            rw [scanLines_shift (nl :: rest2) _ (acc ++ [bumpItem acc.length it0]),
              scanLines_shift (nl :: rest2) _ ([] ++ [it0])]
            simp only [List.nil_append, List.append_assoc, List.singleton_append,
              List.map_cons, List.map_map, List.length_append, List.length_cons,
              List.length_nil, List.length_singleton]
            refine congrArg (fun t => acc ++ bumpItem acc.length it0 :: t) ?_
            rw [Nat.add_comm acc.length (0 + 1)]
            refine List.map_congr_left ?_
            intro a _
            simp only [Function.comp_apply, bumpItem_comp]

/-- C2 (amended): the parser state persists across calls, so a second
parse of the same text on the same instance is not byte-identical (see
the counterexample: category aggregates double and numbering continues)
— but the line-items sequence of the second response equals the
first's, because the re-extracted copies differ only in `line_number`,
which the deduplication key ignores. -/
theorem C2_second_parse_line_items_stable (text : String) :
    ((runParse (runParse initPState text).1 text).2).lineItems? =
      ((runParse initPState text).2).lineItems? := by
  have hscan2 : scanLines (pySplitLines text) none
      (removeDuplicateLineItems (extractedItems text)) =
      removeDuplicateLineItems (extractedItems text) ++
        (extractedItems text).map
          (bumpItem (removeDuplicateLineItems (extractedItems text)).length) := by
    have h := scanLines_shift (pySplitLines text) none
      (removeDuplicateLineItems (extractedItems text))
    rw [h]
    rfl
  have hdedup2 : removeDuplicateLineItems (scanLines (pySplitLines text) none
      (removeDuplicateLineItems (extractedItems text))) =
      removeDuplicateLineItems (extractedItems text) := by
    rw [hscan2]
    unfold removeDuplicateLineItems
    rw [dedupGo_append]
    rw [dedupGo_idem (extractedItems text) []]
    have h2 : dedupGo ((dedupGo [] (extractedItems text)).map dedupKey ++ [])
        ((extractedItems text).map
          (bumpItem (dedupGo [] (extractedItems text)).length)) = [] := by
      apply dedupGo_all_seen
      intro y hy
      obtain ⟨a, ha, rfl⟩ := List.mem_map.mp hy
      have hk : dedupKey (bumpItem (dedupGo [] (extractedItems text)).length a) =
          dedupKey a := rfl
      rw [hk, List.append_nil]
      rcases dedupGo_key_cover (extractedItems text) [] a ha with h | h
      · exact absurd h (List.not_mem_nil _)
      · exact h
    rw [h2, List.append_nil]
  have hr2 : (runParse (runParse initPState text).1 text).2 = buildResponse
      ⟨removeDuplicateLineItems (scanLines (pySplitLines text) none
          (removeDuplicateLineItems (extractedItems text))),
        buildCategoriesFromItems (runParse initPState text).1.categories
          (removeDuplicateLineItems (scanLines (pySplitLines text) none
            (removeDuplicateLineItems (extractedItems text)))),
        extractHeaderData (runParse initPState text).1.header_data text⟩ := rfl
  have hr1 : (runParse initPState text).2 = buildResponse
      ⟨removeDuplicateLineItems (extractedItems text),
        buildCategoriesFromItems [] (removeDuplicateLineItems (extractedItems text)),
        extractHeaderData [] text⟩ := rfl
  rw [hr1, hr2, hdedup2]
  by_cases hD : removeDuplicateLineItems (extractedItems text) = []
  · dsimp only [buildResponse]
    rw [if_pos hD, if_pos hD]
  · dsimp only [buildResponse]
    rw [if_neg hD, if_neg hD]
    rfl
